import Mathlib

/-!
Shallow embedding of the live price subscription service of
src/streamlit_app_Version2.py (class PriceStreamer and the HAS_WS import
guard), together with proofs about the embedded definitions.

Modelling conventions:
* Python strings are Lean Strings; str.upper()/str.lower() are the ASCII
  case maps (the symbols in scope are ASCII, where Python agrees).
* decimal.Decimal values are exact rationals (ℚ); Decimal(str) construction
  is exact in Python independent of context precision, which ℚ reflects.
* The per-streamer threading state (the shared _stop_event, the _thread
  field, the set of background threads that are still running) is explicit
  state; thread.join(timeout=1) is nondeterministic in whether the thread
  exited inside the timeout, recorded by a Boolean jk on each call.
* Timestamps (datetime.utcnow().isoformat()) are abstract Nat values
  supplied by the environment at each tick.
-/

namespace PS

/-- Embedding of Python str.upper on the ASCII symbols in scope. -/
def pyUpper (s : String) : String := ⟨s.data.map Char.toUpper⟩

/-- Embedding of Python str.lower on the ASCII symbols in scope. -/
def pyLower (s : String) : String := ⟨s.data.map Char.toLower⟩

/-- The module-level constant BINANCE_WS_BASE. -/
def BINANCE_WS_BASE : String := "wss://stream.binance.com:9443/stream?streams="

/-- PriceStreamer._build_url: None on an empty symbol set, otherwise the base
URL followed by the "/"-joined streams, one "<symbol.lower()>@trade" per
symbol in sorted order. -/
def buildUrl (symbols : Finset String) : Option String :=
  if symbols = ∅ then none
  else some (BINANCE_WS_BASE ++ String.intercalate "/"
    ((symbols.sort (· ≤ ·)).map (fun s => pyLower s ++ "@trade")))

/-- Value of a list of ASCII digit characters read in base 10. -/
def digitsVal (ds : List Char) : Nat := ds.foldl (fun n c => 10 * n + (c.toNat - 48)) 0

/-- Embedding of Decimal(price_string) for finite plain decimal literals:
optional sign, integer digits, optional '.' and fraction digits. Exponent
notation and the specials NaN/Infinity are outside the model (the feed sends
plain decimal strings); none marks a string the constructor rejects. -/
def parseDecimal (s : String) : Option ℚ :=
  let signed : ℤ × List Char :=
    match s.data with
    | '+' :: t => (1, t)
    | '-' :: t => (-1, t)
    | cs => (1, cs)
  let sgn := signed.1
  let cs := signed.2
  let ip := cs.takeWhile Char.isDigit
  match cs.dropWhile Char.isDigit with
  | [] => if ip.isEmpty then none else some ((sgn * (digitsVal ip : ℤ) : ℤ) : ℚ)
  | '.' :: frac =>
    let fp := frac.takeWhile Char.isDigit
    if (frac.dropWhile Char.isDigit).isEmpty then
      if ip.isEmpty && fp.isEmpty then none
      else some (((sgn * ((digitsVal ip * 10 ^ fp.length + digitsVal fp : ℕ) : ℤ) : ℤ) : ℚ)
        / ((10 ^ fp.length : ℕ) : ℚ))
    else none
  | _ => none

/-- The optional string fields _on_message reads from a tick object:
"s" (symbol), "p" (last trade price), "c" (last close price). -/
structure TickObj where
  s : Option String
  p : Option String
  c : Option String
deriving DecidableEq

/-- An inbound message as seen by _on_message: either a payload on which
json.loads raises, or a parsed object with an optional combined-stream
"data" wrapper around the tick object. -/
inductive Msg where
  | malformed : Msg
  | obj : Option TickObj → TickObj → Msg
deriving DecidableEq

/-- Python "a or b" where a is an absent (None) or string value: None and
the empty string are falsy and fall through to b. Models
data.get("p") or data.get("c"). -/
def pyOrStr : Option String → Option String → Option String
  | some v, b => if v = "" then b else some v
  | none, b => b

/-- obj.get("data") or obj: unwrap the combined-stream payload when present,
else use the object itself; malformed JSON has no object at all. -/
def msgData : Msg → Option TickObj
  | .malformed => none
  | .obj d t => some (d.getD t)

/-- The parsing part of PriceStreamer._on_message: json.loads, the "data"
unwrap, sym = (data.get("s") or "").upper(), price_s = data.get("p") or
data.get("c"), the falsy-guard early return (price_s is falsy exactly when
it is None or empty, so ps here is price_s with None read as ""), and
Decimal(price_s). Any failure along the way yields none, matching the bare
except that swallows every exception. -/
def extractTick (m : Msg) : Option (String × ℚ) :=
  match msgData m with
  | none => none
  | some d =>
    let sym := pyUpper (d.s.getD "")
    let ps := (pyOrStr d.p d.c).getD ""
    if sym = "" ∨ ps = "" then none
    else (parseDecimal ps).map (fun q => (sym, q))

/-- The price cache self._prices: symbol ↦ (Decimal price, receipt time). -/
abbrev PriceMap := List (String × ℚ × Nat)

/-- dict assignment self._prices[sym] = v: overwrite if present, append if
absent. -/
def putPrice (k : String) (v : ℚ × Nat) : PriceMap → PriceMap
  | [] => [(k, v)]
  | e :: t => if e.1 == k then (k, v) :: t else e :: putPrice k v t

/-- self._prices.pop(symbol, None): drop the entry when present. -/
def removePrice (k : String) (m : PriceMap) : PriceMap :=
  m.filter (fun e => e.1 != k)

/-- self._prices.get(symbol). -/
def lookupPrice (k : String) (m : PriceMap) : Option (ℚ × Nat) :=
  (m.find? (fun e => e.1 == k)).map (fun e => e.2)

/-- PriceStreamer._on_message as a cache transformer; now is the local
receipt timestamp the handler stores alongside the price. -/
def onMessage (m : Msg) (now : Nat) (pm : PriceMap) : PriceMap :=
  match extractTick m with
  | none => pm
  | some sq => putPrice sq.1 (sq.2, now) pm

/-- One background websocket thread together with the WebSocketApp
connections it drives (a ConnectionHandle): the _run closure spawned by
_run_ws. id is spawn order, url the target it was started for, and syms the
ghost record of the subscription set that url was built from. -/
structure ThreadH where
  id : Nat
  url : String
  syms : Finset String
deriving DecidableEq

/-- The mutable state of one PriceStreamer instance, with ghost fields:
everSubscribed (all symbols ever added to self._symbols), everTicked (all
symbols ever written by a tick), restarts (_restart_connection invocation
count). live lists the background threads that have been spawned and have
not yet exited; stopEvent is the single shared threading.Event. -/
structure SysState where
  symbols : Finset String
  prices : PriceMap
  stopEvent : Bool
  curThread : Option Nat
  live : List ThreadH
  nextId : Nat
  everSubscribed : Finset String
  everTicked : Finset String
  restarts : Nat
deriving DecidableEq

/-- PriceStreamer.__init__. -/
def initState : SysState :=
  { symbols := ∅, prices := [], stopEvent := false, curThread := none
  , live := [], nextId := 0, everSubscribed := ∅, everTicked := ∅
  , restarts := 0 }

/-- The set of still-running threads after _stop_ws joined the recorded
thread: when a thread is recorded and the join succeeded (jk = true) it is
gone; on a join timeout (jk = false), or with no recorded thread, nothing
exits here. -/
def stoppedLive (jk : Bool) (cur : Option Nat) (live : List ThreadH) : List ThreadH :=
  match cur, jk with
  | some tid, true => live.filter (fun t => t.id != tid)
  | _, _ => live

/-- PriceStreamer._stop_ws: set the shared stop event, close the current
WebSocketApp, join the recorded thread with a one second timeout, then drop
both references. jk records whether the join found the thread exited inside
the timeout; on timeout (jk = false) the source proceeds regardless and the
thread stays alive. -/
def stopWs (jk : Bool) (σ : SysState) : SysState :=
  { σ with stopEvent := true
         , live := stoppedLive jk σ.curThread σ.live
         , curThread := none }

/-- PriceStreamer._run_ws: return immediately when the websocket library is
missing; otherwise clear the shared stop event and spawn a new daemon thread
running the retry loop for url. syms is the ghost annotation of the symbols
url was built from. -/
def runWs (hasWS : Bool) (url : String) (syms : Finset String) (σ : SysState) : SysState :=
  if hasWS then
    { σ with stopEvent := false
           , live := σ.live ++ [⟨σ.nextId, url, syms⟩]
           , curThread := some σ.nextId
           , nextId := σ.nextId + 1 }
  else σ

/-- PriceStreamer._restart_connection: _stop_ws, rebuild the url from the
current symbol set (unchanged by _stop_ws), and _run_ws only when a url was
built. restarts is the ghost invocation counter. -/
def restartConnection (hasWS jk : Bool) (σ : SysState) : SysState :=
  match buildUrl σ.symbols with
  | some url => runWs hasWS url σ.symbols { stopWs jk σ with restarts := σ.restarts + 1 }
  | none => { stopWs jk σ with restarts := σ.restarts + 1 }

/-- PriceStreamer.subscribe: False without the websocket library; with it,
uppercase the symbol, return True at once when already subscribed, otherwise
add it and restart the connection. -/
def subscribe (hasWS jk : Bool) (s : String) (σ : SysState) : SysState × Bool :=
  if hasWS then
    let u := pyUpper s
    if u ∈ σ.symbols then (σ, true)
    else
      (restartConnection hasWS jk
        { σ with symbols := insert u σ.symbols
               , everSubscribed := insert u σ.everSubscribed }, true)
  else (σ, false)

/-- PriceStreamer.unsubscribe: False without the websocket library; with it,
uppercase the symbol, remove it and its cache entry when subscribed, and
restart the connection unconditionally. -/
def unsubscribe (hasWS jk : Bool) (s : String) (σ : SysState) : SysState × Bool :=
  if hasWS then
    let u := pyUpper s
    let σ1 := if u ∈ σ.symbols then
        { σ with symbols := σ.symbols.erase u, prices := removePrice u σ.prices }
      else σ
    (restartConnection hasWS jk σ1, true)
  else (σ, false)

/-- PriceStreamer.get_price: uppercase the symbol and read the cache. -/
def getPrice (σ : SysState) (s : String) : Option (ℚ × Nat) :=
  lookupPrice (pyUpper s) σ.prices

/-- PriceStreamer.list_symbols. -/
def listSymbols (σ : SysState) : List String := σ.symbols.sort (· ≤ ·)

/-- PriceStreamer.stop, which is exactly _stop_ws. -/
def stop (jk : Bool) (σ : SysState) : SysState := stopWs jk σ

/-- Effect of one inbound message delivered to a background thread:
_on_message on the cache, plus the ghost record of the symbol that ticked. -/
def applyTick (m : Msg) (now : Nat) (σ : SysState) : SysState :=
  { σ with prices := onMessage m now σ.prices
         , everTicked := match extractTick m with
             | some sq => insert sq.1 σ.everTicked
             | none => σ.everTicked }

/-- Interleaving semantics of one PriceStreamer: API calls (atomic here; the
source serializes the mutating parts under self._lock) and autonomous steps
of live background threads. Each call that reaches _stop_ws carries the join
outcome jk; strict = true restricts to executions in which every join
completes inside its timeout. The tick side condition is the upstream feed
contract: a connection only carries ticks for symbols its url subscribed.
A live thread exits on its own only after observing the stop event set. -/
inductive Step (hasWS strict : Bool) : SysState → SysState → Prop
  | subscribeStep (s : String) (jk : Bool) (σ : SysState)
      (hjk : strict = true → jk = true) :
      Step hasWS strict σ (subscribe hasWS jk s σ).1
  | unsubscribeStep (s : String) (jk : Bool) (σ : SysState)
      (hjk : strict = true → jk = true) :
      Step hasWS strict σ (unsubscribe hasWS jk s σ).1
  | stopStep (jk : Bool) (σ : SysState) (hjk : strict = true → jk = true) :
      Step hasWS strict σ (stop jk σ)
  | tickStep (t : ThreadH) (m : Msg) (now : Nat) (σ : SysState)
      (ht : t ∈ σ.live)
      (hm : ∀ sq, extractTick m = some sq → sq.1 ∈ t.syms) :
      Step hasWS strict σ (applyTick m now σ)
  | exitStep (t : ThreadH) (σ : SysState) (ht : t ∈ σ.live)
      (hstop : σ.stopEvent = true) :
      Step hasWS strict σ { σ with live := σ.live.filter (fun u => u.id != t.id) }

/-- States reachable from a fresh PriceStreamer. -/
def Reachable (hasWS strict : Bool) (σ : SysState) : Prop :=
  Relation.ReflTransGen (Step hasWS strict) initState σ

/-- Events of the retry loop in _run_ws: one connection attempt
(WebSocketApp construction plus run_forever), or one backoff sleep of the
given number of seconds. -/
inductive LoopEvent where
  | attempt : LoopEvent
  | backoff : Nat → LoopEvent
deriving DecidableEq

/-- The while loop of the _run closure in _run_ws. stopRead gives the
successive reads of the shared stop event, numbered in program order: read i
is the while condition of an iteration, read i+1 the post-attempt check that
guards time.sleep(2). fuel bounds the unrolling; the Bool result is true
when the loop exited by observing the stop event, false when fuel ran out
with the loop still running. -/
def wsRetryLoop (stopRead : Nat → Bool) : Nat → Nat → List LoopEvent × Bool
  | _, 0 => ([], false)
  | i, fuel + 1 =>
    if stopRead i then ([], true)
    else
      let tail := wsRetryLoop stopRead (i + 2) fuel
      (LoopEvent.attempt :: ((if stopRead (i + 1) then [] else [LoopEvent.backoff 2]) ++ tail.1),
       tail.2)

/-- Driver that subscribes a list of symbols in order (as the sidebar UI
does, one button press at a time). -/
def subscribeSeq (hasWS jk : Bool) (l : List String) (σ : SysState) : SysState :=
  l.foldl (fun σ s => (subscribe hasWS jk s σ).1) σ

theorem find?_putPrice_self (k : String) (v : ℚ × Nat) (m : PriceMap) :
    (putPrice k v m).find? (fun e => e.1 == k) = some (k, v) := by
  induction m with
  | nil => simp [putPrice, List.find?]
  | cons e t ih =>
    rw [putPrice]
    by_cases h : e.1 = k
    · simp [List.find?, h]
    · have hb : (e.1 == k) = false := by simpa using h
      rw [hb]
      simp only [Bool.false_eq_true, if_false, List.find?_cons, hb]
      exact ih

theorem lookupPrice_putPrice_self (k : String) (v : ℚ × Nat) (m : PriceMap) :
    lookupPrice k (putPrice k v m) = some v := by
  simp [lookupPrice, find?_putPrice_self]

theorem lookupPrice_removePrice_self (k : String) (m : PriceMap) :
    lookupPrice k (removePrice k m) = none := by
  have hf : (removePrice k m).find? (fun e => e.1 == k) = none := by
    rw [List.find?_eq_none]
    intro e he
    have h2 := (List.mem_filter.mp he).2
    simp only [bne_iff_ne, ne_eq] at h2
    simpa using h2
  simp [lookupPrice, hf]

theorem mem_putPrice {e : String × ℚ × Nat} {k : String} {v : ℚ × Nat} {m : PriceMap}
    (h : e ∈ putPrice k v m) : e = (k, v) ∨ e ∈ m := by
  induction m with
  | nil => simpa [putPrice] using h
  | cons a t ih =>
    rw [putPrice] at h
    by_cases ha : a.1 = k
    · have hb : (a.1 == k) = true := by simpa using ha
      rw [hb] at h
      simp only [if_true, List.mem_cons] at h
      rcases h with h | h
      · exact Or.inl h
      · exact Or.inr (List.mem_cons_of_mem _ h)
    · have hb : (a.1 == k) = false := by simpa using ha
      rw [hb] at h
      simp only [Bool.false_eq_true, if_false, List.mem_cons] at h
      rcases h with h | h
      · exact Or.inr (by simp [h])
      · rcases ih h with h1 | h1
        · exact Or.inl h1
        · exact Or.inr (List.mem_cons_of_mem _ h1)

theorem mem_stoppedLive {jk : Bool} {cur : Option Nat} {live : List ThreadH} {t : ThreadH}
    (h : t ∈ stoppedLive jk cur live) : t ∈ live := by
  rcases cur with _ | tid <;> rcases jk <;> simp only [stoppedLive] at h
  · exact h
  · exact h
  · exact h
  · exact (List.mem_filter.mp h).1

theorem stopWs_symbols (jk : Bool) (σ : SysState) : (stopWs jk σ).symbols = σ.symbols := rfl

theorem stopWs_prices (jk : Bool) (σ : SysState) : (stopWs jk σ).prices = σ.prices := rfl

theorem stopWs_nextId (jk : Bool) (σ : SysState) : (stopWs jk σ).nextId = σ.nextId := rfl

theorem restart_symbols (h jk : Bool) (σ : SysState) :
    (restartConnection h jk σ).symbols = σ.symbols := by
  rw [restartConnection]
  rcases buildUrl σ.symbols with _ | url
  · rfl
  · rcases h <;> rfl

theorem restart_prices (h jk : Bool) (σ : SysState) :
    (restartConnection h jk σ).prices = σ.prices := by
  rw [restartConnection]
  rcases buildUrl σ.symbols with _ | url
  · rfl
  · rcases h <;> rfl

theorem restart_everSubscribed (h jk : Bool) (σ : SysState) :
    (restartConnection h jk σ).everSubscribed = σ.everSubscribed := by
  rw [restartConnection]
  rcases buildUrl σ.symbols with _ | url
  · rfl
  · rcases h <;> rfl

theorem restart_everTicked (h jk : Bool) (σ : SysState) :
    (restartConnection h jk σ).everTicked = σ.everTicked := by
  rw [restartConnection]
  rcases buildUrl σ.symbols with _ | url
  · rfl
  · rcases h <;> rfl

theorem restart_restarts (h jk : Bool) (σ : SysState) :
    (restartConnection h jk σ).restarts = σ.restarts + 1 := by
  rw [restartConnection]
  rcases buildUrl σ.symbols with _ | url
  · rfl
  · rcases h <;> rfl

theorem restart_live (h jk : Bool) (σ : SysState) :
    ∀ t ∈ (restartConnection h jk σ).live, t ∈ σ.live ∨ t.syms = σ.symbols := by
  intro t ht
  rw [restartConnection] at ht
  rcases hb : buildUrl σ.symbols with _ | url <;> rw [hb] at ht
  · exact Or.inl (mem_stoppedLive (by simpa [stopWs] using ht))
  · rcases h
    · simp only [runWs, Bool.false_eq_true, if_false] at ht
      exact Or.inl (mem_stoppedLive (by simpa [stopWs] using ht))
    · simp only [runWs, if_true, List.mem_append] at ht
      rcases ht with ht | ht
      · exact Or.inl (mem_stoppedLive (by simpa [stopWs] using ht))
      · right
        have he : t = ⟨σ.nextId, url, σ.symbols⟩ := by simpa [stopWs] using ht
        rw [he]

theorem subscribe_symbols (jk : Bool) (s : String) (σ : SysState) :
    (subscribe true jk s σ).1.symbols = insert (pyUpper s) σ.symbols := by
  rw [subscribe]
  by_cases h : pyUpper s ∈ σ.symbols
  · simp [h, (Finset.insert_eq_self).mpr h]
  · simp [h, restart_symbols]

/-- Ghost-state invariant: every cache entry is for a symbol that was at some
point subscribed and at some point written by a tick; the current symbol set
and every live thread's subscription set are within everSubscribed. -/
def CacheInv (σ : SysState) : Prop :=
  (∀ e ∈ σ.prices, e.1 ∈ σ.everSubscribed ∧ e.1 ∈ σ.everTicked) ∧
  σ.symbols ⊆ σ.everSubscribed ∧
  ∀ t ∈ σ.live, t.syms ⊆ σ.everSubscribed

theorem cacheInv_init : CacheInv initState := by
  refine ⟨?_, ?_, ?_⟩ <;> simp [initState]

theorem cacheInv_restart (h jk : Bool) (σ : SysState) (hc : CacheInv σ) :
    CacheInv (restartConnection h jk σ) := by
  obtain ⟨h1, h2, h3⟩ := hc
  refine ⟨?_, ?_, ?_⟩
  · rw [restart_prices, restart_everSubscribed, restart_everTicked]
    exact h1
  · rw [restart_symbols, restart_everSubscribed]
    exact h2
  · intro t ht
    rw [restart_everSubscribed]
    rcases restart_live h jk σ t ht with hm | hs
    · exact h3 t hm
    · rw [hs]; exact h2

theorem cacheInv_step {hW strict : Bool} {σ σ' : SysState}
    (st : Step hW strict σ σ') (hc : CacheInv σ) : CacheInv σ' := by
  obtain ⟨h1, h2, h3⟩ := hc
  cases st with
  | subscribeStep s jk σ hjk =>
    rcases hW
    · simpa [subscribe] using ⟨h1, h2, h3⟩
    · rw [subscribe]
      by_cases hm : pyUpper s ∈ σ.symbols
      · simpa [hm] using ⟨h1, h2, h3⟩
      · simp only [hm, if_true, if_false, Bool.true_eq_false]
        refine cacheInv_restart true jk _ ⟨?_, ?_, ?_⟩
        · intro e he
          obtain ⟨ha, hb⟩ := h1 e he
          exact ⟨Finset.mem_insert_of_mem ha, hb⟩
        · exact Finset.insert_subset_insert _ h2
        · intro t ht
          exact (h3 t ht).trans (Finset.subset_insert _ _)
  | unsubscribeStep s jk σ hjk =>
    rcases hW
    · simpa [unsubscribe] using ⟨h1, h2, h3⟩
    · rw [unsubscribe]
      by_cases hm : pyUpper s ∈ σ.symbols
      · simp only [hm, if_true]
        refine cacheInv_restart true jk _ ⟨?_, ?_, ?_⟩
        · intro e he
          exact h1 e ((List.mem_filter.mp he).1)
        · exact (Finset.erase_subset _ _).trans h2
        · exact h3
      · simp only [hm, if_false]
        exact cacheInv_restart true jk σ ⟨h1, h2, h3⟩
  | stopStep jk σ hjk =>
    refine ⟨h1, h2, ?_⟩
    intro t ht
    exact h3 t (mem_stoppedLive (by simpa [stop, stopWs] using ht))
  | tickStep t m now σ ht hm =>
    rw [applyTick]
    rcases he : extractTick m with _ | sq
    · simp only [he, onMessage]
      exact ⟨h1, h2, h3⟩
    · simp only [he, onMessage]
      refine ⟨?_, h2, h3⟩
      intro e hmem
      rcases mem_putPrice hmem with h4 | h4
      · have hs : sq.1 ∈ t.syms := hm sq he
        have : e.1 = sq.1 := by rw [h4]
        rw [this]
        exact ⟨h3 t ht hs, Finset.mem_insert_self _ _⟩
      · obtain ⟨ha, hb⟩ := h1 e h4
        exact ⟨ha, Finset.mem_insert_of_mem hb⟩
  | exitStep t σ ht hstop =>
    refine ⟨h1, h2, ?_⟩
    intro u hu
    exact h3 u (List.mem_filter.mp hu).1

theorem cacheInv_reachable {hW strict : Bool} {σ : SysState}
    (h : Reachable hW strict σ) : CacheInv σ := by
  induction h with
  | refl => exact cacheInv_init
  | tail _ st ih => exact cacheInv_step st ih

/-- Invariant of executions whose joins all complete in time: at most one
background thread is alive, and it is the one the _thread field records. -/
def HandleInv (σ : SysState) : Prop :=
  σ.live.length ≤ 1 ∧ ∀ t ∈ σ.live, σ.curThread = some t.id

theorem handleInv_init : HandleInv initState := by
  refine ⟨?_, ?_⟩ <;> simp [initState]

theorem stopWs_live_nil (σ : SysState)
    (h : ∀ t ∈ σ.live, σ.curThread = some t.id) : (stopWs true σ).live = [] := by
  show stoppedLive true σ.curThread σ.live = []
  rcases hc : σ.curThread with _ | tid
  · rcases hl : σ.live with _ | ⟨a, l⟩
    · rfl
    · have := h a (by rw [hl]; exact List.mem_cons_self a l)
      rw [hc] at this
      exact absurd this (by simp)
  · rw [stoppedLive]
    rw [List.filter_eq_nil_iff]
    intro t htm
    have := h t htm
    rw [hc] at this
    have hid : tid = t.id := by injection this
    simp [hid]

theorem restart_false_live (jk : Bool) (σ : SysState) :
    (restartConnection false jk σ).live = (stopWs jk σ).live := by
  rcases hb : buildUrl σ.symbols with _ | url <;> simp [restartConnection, hb, runWs]

theorem restart_false_cur (jk : Bool) (σ : SysState) :
    (restartConnection false jk σ).curThread = none := by
  rcases hb : buildUrl σ.symbols with _ | url <;> simp [restartConnection, hb, runWs, stopWs]

theorem restart_none_live (h jk : Bool) (σ : SysState) (hb : buildUrl σ.symbols = none) :
    (restartConnection h jk σ).live = (stopWs jk σ).live := by
  simp [restartConnection, hb]

theorem restart_none_cur (h jk : Bool) (σ : SysState) (hb : buildUrl σ.symbols = none) :
    (restartConnection h jk σ).curThread = none := by
  simp [restartConnection, hb, stopWs]

theorem restart_someT_live (jk : Bool) (σ : SysState) (url : String)
    (hb : buildUrl σ.symbols = some url) :
    (restartConnection true jk σ).live = (stopWs jk σ).live ++ [⟨σ.nextId, url, σ.symbols⟩] := by
  simp [restartConnection, hb, runWs, stopWs]

theorem restart_someT_cur (jk : Bool) (σ : SysState) (url : String)
    (hb : buildUrl σ.symbols = some url) :
    (restartConnection true jk σ).curThread = some σ.nextId := by
  simp [restartConnection, hb, runWs, stopWs]

theorem restart_someT_nextId (jk : Bool) (σ : SysState) (url : String)
    (hb : buildUrl σ.symbols = some url) :
    (restartConnection true jk σ).nextId = σ.nextId + 1 := by
  simp [restartConnection, hb, runWs, stopWs]

theorem handleInv_restart (h : Bool) (σ : SysState)
    (hi : ∀ t ∈ σ.live, σ.curThread = some t.id) :
    HandleInv (restartConnection h true σ) := by
  have hnil : (stopWs true σ).live = [] := stopWs_live_nil σ hi
  rcases hb : buildUrl σ.symbols with _ | url
  · refine ⟨?_, ?_⟩
    · rw [restart_none_live h true σ hb, hnil]
      simp
    · intro t htm
      rw [restart_none_live h true σ hb, hnil] at htm
      simp at htm
  · rcases h
    · refine ⟨?_, ?_⟩
      · rw [restart_false_live true σ, hnil]
        simp
      · intro t htm
        rw [restart_false_live true σ, hnil] at htm
        simp at htm
    · refine ⟨?_, ?_⟩
      · rw [restart_someT_live true σ url hb, hnil]
        simp
      · intro t htm
        rw [restart_someT_live true σ url hb, hnil] at htm
        simp only [List.nil_append, List.mem_singleton] at htm
        rw [restart_someT_cur true σ url hb, htm]

theorem handleInv_step {hW : Bool} {σ σ' : SysState}
    (st : Step hW true σ σ') (hi : HandleInv σ) : HandleInv σ' := by
  obtain ⟨hl, hc⟩ := hi
  cases st with
  | subscribeStep s jk σ hjk =>
    have hj : jk = true := hjk rfl
    subst hj
    rcases hW
    · simpa [subscribe] using ⟨hl, hc⟩
    · rw [subscribe]
      by_cases hm : pyUpper s ∈ σ.symbols
      · simpa [hm] using ⟨hl, hc⟩
      · simp only [hm, if_true, if_false, Bool.true_eq_false]
        exact handleInv_restart true _ hc
  | unsubscribeStep s jk σ hjk =>
    have hj : jk = true := hjk rfl
    subst hj
    rcases hW
    · simpa [unsubscribe] using ⟨hl, hc⟩
    · rw [unsubscribe]
      by_cases hm : pyUpper s ∈ σ.symbols <;> simp only [hm, if_true, if_false]
      · exact handleInv_restart true _ hc
      · exact handleInv_restart true _ hc
  | stopStep jk σ hjk =>
    have hj : jk = true := hjk rfl
    subst hj
    constructor
    · show ((stopWs true σ).live).length ≤ 1
      rw [stopWs_live_nil σ hc]
      simp
    · intro t htm
      have : t ∈ (stopWs true σ).live := htm
      rw [stopWs_live_nil σ hc] at this
      simp at this
  | tickStep t m now σ ht hm =>
    exact ⟨hl, hc⟩
  | exitStep t σ ht hstop =>
    constructor
    · exact (List.length_filter_le _ _).trans hl
    · intro u hu
      exact hc u (List.mem_filter.mp hu).1

theorem handleInv_reachable {hW : Bool} {σ : SysState}
    (h : Reachable hW true σ) : HandleInv σ := by
  induction h with
  | refl => exact handleInv_init
  | tail _ st ih => exact handleInv_step st ih

/-- With the websocket library missing, nothing is ever subscribed, cached,
or connected. -/
theorem noWS_step {strict : Bool} {σ σ' : SysState} (st : Step false strict σ σ')
    (ih : σ.symbols = ∅ ∧ σ.prices = [] ∧ σ.live = [] ∧ σ.nextId = 0) :
    σ'.symbols = ∅ ∧ σ'.prices = [] ∧ σ'.live = [] ∧ σ'.nextId = 0 := by
  obtain ⟨i1, i2, i3, i4⟩ := ih
  cases st with
  | subscribeStep s jk σ hjk => simpa [subscribe] using ⟨i1, i2, i3, i4⟩
  | unsubscribeStep s jk σ hjk => simpa [unsubscribe] using ⟨i1, i2, i3, i4⟩
  | stopStep jk σ hjk =>
    refine ⟨i1, i2, ?_, i4⟩
    show stoppedLive jk σ.curThread σ.live = []
    rw [i3]
    rcases σ.curThread with _ | tid <;> rcases jk <;> simp [stoppedLive]
  | tickStep t m now σ ht hm =>
    rw [i3] at ht
    exact absurd ht (List.not_mem_nil t)
  | exitStep t σ ht hstop =>
    rw [i3] at ht
    exact absurd ht (List.not_mem_nil t)

/-- With the websocket library missing, nothing is ever subscribed, cached,
or connected. -/
theorem noWS_reachable {strict : Bool} {σ : SysState}
    (h : Reachable false strict σ) :
    σ.symbols = ∅ ∧ σ.prices = [] ∧ σ.live = [] ∧ σ.nextId = 0 := by
  induction h with
  | refl => exact ⟨rfl, rfl, rfl, rfl⟩
  | tail _ st ih => exact noWS_step st ih

theorem subscribe_mem (jk : Bool) (s : String) (σ : SysState)
    (h : pyUpper s ∈ σ.symbols) : subscribe true jk s σ = (σ, true) := by
  rw [subscribe]
  simp [h]

theorem restart_none_nextId (h jk : Bool) (σ : SysState) (hb : buildUrl σ.symbols = none) :
    (restartConnection h jk σ).nextId = σ.nextId := by
  simp [restartConnection, hb, stopWs]

theorem buildUrl_eq_none_iff (S : Finset String) : buildUrl S = none ↔ S = ∅ := by
  by_cases h : S = ∅ <;> simp [buildUrl, h]

theorem subscribeSeq_symbols (jk : Bool) (l : List String) (σ : SysState) :
    (subscribeSeq true jk l σ).symbols = σ.symbols ∪ (l.map pyUpper).toFinset := by
  induction l generalizing σ with
  | nil => simp [subscribeSeq]
  | cons a t ih =>
    show (subscribeSeq true jk t (subscribe true jk a σ).1).symbols = _
    rw [ih, subscribe_symbols]
    rw [List.map_cons, List.toFinset_cons, Finset.insert_union, Finset.union_insert]

/-- C4: subscribe is idempotent. Subscribing an already-present symbol (after
normalization) returns the state unchanged with no restart; subscribing the
same symbol twice in a row gives the same state as once; one subscribe call
triggers at most one connection restart, and so does a double call. -/
theorem C4_subscribe_idempotent :
    (∀ (h jk : Bool) (s : String) (σ : SysState),
        pyUpper s ∈ σ.symbols → subscribe h jk s σ = (σ, h)) ∧
    (∀ (h jk1 jk2 : Bool) (s : String) (σ : SysState),
        (subscribe h jk2 s (subscribe h jk1 s σ).1).1 = (subscribe h jk1 s σ).1) ∧
    (∀ (h jk : Bool) (s : String) (σ : SysState),
        σ.restarts ≤ (subscribe h jk s σ).1.restarts ∧
        (subscribe h jk s σ).1.restarts ≤ σ.restarts + 1) ∧
    (∀ (h jk1 jk2 : Bool) (s : String) (σ : SysState),
        (subscribe h jk2 s (subscribe h jk1 s σ).1).1.restarts ≤ σ.restarts + 1) := by
  have hmem : ∀ (h jk : Bool) (s : String) (σ : SysState),
      pyUpper s ∈ σ.symbols → subscribe h jk s σ = (σ, h) := by
    intro h jk s σ hm
    rcases h
    · simp [subscribe]
    · exact subscribe_mem jk s σ hm
  have hffst : ∀ (jk : Bool) (s : String) (σ : SysState), (subscribe false jk s σ).1 = σ := by
    intro jk s σ
    simp [subscribe]
  have hdouble : ∀ (h jk1 jk2 : Bool) (s : String) (σ : SysState),
      (subscribe h jk2 s (subscribe h jk1 s σ).1).1 = (subscribe h jk1 s σ).1 := by
    intro h jk1 jk2 s σ
    rcases h
    · rw [hffst, hffst]
    · have hm : pyUpper s ∈ (subscribe true jk1 s σ).1.symbols := by
        rw [subscribe_symbols]
        exact Finset.mem_insert_self _ _
      rw [subscribe_mem jk2 s _ hm]
  have hrst : ∀ (h jk : Bool) (s : String) (σ : SysState),
      σ.restarts ≤ (subscribe h jk s σ).1.restarts ∧
      (subscribe h jk s σ).1.restarts ≤ σ.restarts + 1 := by
    intro h jk s σ
    rcases h
    · rw [hffst]
      exact ⟨le_refl _, Nat.le_succ _⟩
    · rw [subscribe]
      by_cases hm : pyUpper s ∈ σ.symbols
      · simp only [hm, if_true]
        exact ⟨le_refl _, Nat.le_succ _⟩
      · simp only [hm, if_true, if_false]
        rw [restart_restarts]
        exact ⟨Nat.le_succ _, le_refl _⟩
  refine ⟨hmem, hdouble, hrst, ?_⟩
  intro h jk1 jk2 s σ
  rw [hdouble]
  exact (hrst h jk1 s σ).2

/-- C4 witness: a concrete second subscribe of an already-subscribed symbol
is the identity and costs no restart. -/
theorem C4_subscribe_idempotent_witness :
    subscribe true true "BTCUSDT" (subscribe true true "BTCUSDT" initState).1
      = ((subscribe true true "BTCUSDT" initState).1, true) ∧
    (subscribe true true "BTCUSDT" initState).1.restarts ≤ initState.restarts + 1 :=
  ⟨C4_subscribe_idempotent.1 true true "BTCUSDT" _
      (by rw [subscribe_symbols]; exact Finset.mem_insert_self _ _),
   (C4_subscribe_idempotent.2.2.1 true true "BTCUSDT" initState).2⟩

/-- C5: for a non-empty subscription set the endpoint URL is the fixed base
followed by the "/"-joined sorted list of symbols, each lower-cased with the
"@trade" channel tag; subscribing the same symbols in any order yields the
same URL; an empty set builds no URL and a restart on an empty set opens no
connection. -/
theorem C5_buildUrl_form :
    (∀ symbols : Finset String, symbols ≠ ∅ →
        buildUrl symbols = some (BINANCE_WS_BASE ++ String.intercalate "/"
          ((symbols.sort (· ≤ ·)).map (fun s => pyLower s ++ "@trade")))) ∧
    (∀ (jk1 jk2 : Bool) (l1 l2 : List String), l1.Perm l2 →
        buildUrl (subscribeSeq true jk1 l1 initState).symbols
          = buildUrl (subscribeSeq true jk2 l2 initState).symbols) ∧
    (buildUrl (∅ : Finset String) = none) ∧
    (∀ (jk : Bool) (σ : SysState), σ.symbols = ∅ →
        (restartConnection true jk σ).nextId = σ.nextId ∧
        (restartConnection true jk σ).live = (stopWs jk σ).live) := by
  refine ⟨?_, ?_, ?_, ?_⟩
  · intro S hS
    simp [buildUrl, hS]
  · intro jk1 jk2 l1 l2 hp
    rw [subscribeSeq_symbols, subscribeSeq_symbols,
      List.toFinset_eq_of_perm _ _ (hp.map pyUpper)]
  · simp [buildUrl]
  · intro jk σ hS
    have hb : buildUrl σ.symbols = none := (buildUrl_eq_none_iff _).mpr hS
    exact ⟨restart_none_nextId true jk σ hb, restart_none_live true jk σ hb⟩

/-- C5 witness: concrete instances of the URL form, order independence, and
the empty-set behavior. -/
theorem C5_buildUrl_form_witness :
    buildUrl (insert "BTCUSDT" (∅ : Finset String))
      = some (BINANCE_WS_BASE ++ String.intercalate "/"
          (((insert "BTCUSDT" (∅ : Finset String)).sort (· ≤ ·)).map
            (fun s => pyLower s ++ "@trade"))) ∧
    buildUrl (subscribeSeq true true ["ETHUSDT", "BTCUSDT"] initState).symbols
      = buildUrl (subscribeSeq true true ["BTCUSDT", "ETHUSDT"] initState).symbols ∧
    (restartConnection true true initState).nextId = initState.nextId :=
  ⟨C5_buildUrl_form.1 _ (by decide),
   C5_buildUrl_form.2.1 true true _ _ (List.Perm.swap "BTCUSDT" "ETHUSDT" []),
   (C5_buildUrl_form.2.2.2 true initState rfl).1⟩

/-- C10: without the websocket-client library (HAS_WS false), subscribe and
unsubscribe return False and change nothing, and no state reachable from a
fresh streamer ever has a subscription, a cache entry, or a spawned
connection thread; with the library, both calls return True for every
symbol. -/
theorem C10_hasWS_gate :
    (∀ (jk : Bool) (s : String) (σ : SysState),
        subscribe false jk s σ = (σ, false) ∧ unsubscribe false jk s σ = (σ, false)) ∧
    (∀ (strict : Bool) (σ : SysState), Reachable false strict σ →
        σ.symbols = ∅ ∧ σ.prices = [] ∧ σ.live = [] ∧ σ.nextId = 0) ∧
    (∀ (jk : Bool) (s : String) (σ : SysState),
        (subscribe true jk s σ).2 = true ∧ (unsubscribe true jk s σ).2 = true) := by
  refine ⟨?_, ?_, ?_⟩
  · intro jk s σ
    constructor <;> simp [subscribe, unsubscribe]
  · intro strict σ h
    exact noWS_reachable h
  · intro jk s σ
    constructor
    · rw [subscribe]
      by_cases hm : pyUpper s ∈ σ.symbols <;> simp [hm]
    · simp [unsubscribe]

/-- C10 witness: concrete calls with and without the library, and the
no-connection invariant at the initial state. -/
theorem C10_hasWS_gate_witness :
    subscribe false true "BTCUSDT" initState = (initState, false) ∧
    initState.live = [] ∧
    (subscribe true true "BTCUSDT" initState).2 = true :=
  ⟨(C10_hasWS_gate.1 true "BTCUSDT" initState).1,
   (C10_hasWS_gate.2.1 false initState Relation.ReflTransGen.refl).2.2.1,
   (C10_hasWS_gate.2.2 true "BTCUSDT" initState).1⟩

/-- C6: the retry loop exits as soon as the stop event is observed at the
top of an iteration, without another connection attempt; its only delay
between attempts is the fixed two second backoff; and with the stop event
never set it runs one attempt per iteration for ever, with no retry-count
ceiling. -/
theorem C6_retry_loop :
    (∀ (r : Nat → Bool) (i fuel : Nat), r i = true →
        wsRetryLoop r i (fuel + 1) = ([], true)) ∧
    (∀ (r : Nat → Bool) (i fuel : Nat) (e : LoopEvent),
        e ∈ (wsRetryLoop r i fuel).1 → e = LoopEvent.attempt ∨ e = LoopEvent.backoff 2) ∧
    (∀ (i fuel : Nat),
        (wsRetryLoop (fun _ => false) i fuel).1.count LoopEvent.attempt = fuel ∧
        (wsRetryLoop (fun _ => false) i fuel).2 = false) := by
  refine ⟨?_, ?_, ?_⟩
  · intro r i fuel hstop
    rw [wsRetryLoop, hstop]
    simp
  · intro r i fuel
    induction fuel generalizing i with
    | zero =>
      intro e hmem
      simp [wsRetryLoop] at hmem
    | succ n ih =>
      intro e hmem
      rw [wsRetryLoop] at hmem
      by_cases hr : r i
      · rw [hr] at hmem
        simp at hmem
      · simp only [hr, Bool.false_eq_true, if_false, List.mem_cons, List.mem_append] at hmem
        rcases hmem with he | he | he
        · exact Or.inl he
        · by_cases hr2 : r (i + 1)
          · rw [hr2] at he
            simp at he
          · simp only [hr2, Bool.false_eq_true, if_false, List.mem_singleton] at he
            exact Or.inr he
        · exact ih (i + 2) e he
  · intro i fuel
    induction fuel generalizing i with
    | zero => simp [wsRetryLoop]
    | succ n ih =>
      rw [wsRetryLoop]
      simp only [Bool.false_eq_true, if_false, List.count_cons, List.count_append]
      constructor
      · have h1 := (ih (i + 2)).1
        simp only [List.count_singleton] at h1 ⊢
        rw [h1]
        simp
      · exact (ih (i + 2)).2

/-- C6 witness: a loop that sees the stop event set exits at once with no
attempt; a never-stopped loop makes one attempt per unrolled iteration and
is still running. -/
theorem C6_retry_loop_witness :
    wsRetryLoop (fun _ => true) 0 3 = ([], true) ∧
    (wsRetryLoop (fun _ => false) 0 4).1.count LoopEvent.attempt = 4 ∧
    (wsRetryLoop (fun _ => false) 0 4).2 = false :=
  ⟨C6_retry_loop.1 (fun _ => true) 0 2 rfl,
   (C6_retry_loop.2.2 0 4).1,
   (C6_retry_loop.2.2 0 4).2⟩

/-- C7: the message handler prefers the last-trade-price field "p" and
falls back to the last-close-price field "c"; a message that fails JSON
parsing, lacks a symbol, lacks a price, or whose price string Decimal
rejects is discarded with the cache left unchanged. -/
theorem C7_onMessage_discard :
    (∀ (m : Msg) (now : Nat) (pm : PriceMap),
        extractTick m = none → onMessage m now pm = pm) ∧
    (extractTick Msg.malformed = none) ∧
    (∀ (c : Option String) (ps : String), ps ≠ "" → pyOrStr (some ps) c = some ps) ∧
    (∀ c : Option String, pyOrStr none c = c ∧ pyOrStr (some "") c = c) ∧
    (∀ d : TickObj, d.s = none ∨ d.s = some "" → extractTick (Msg.obj none d) = none) ∧
    (∀ d : TickObj, pyOrStr d.p d.c = none → extractTick (Msg.obj none d) = none) ∧
    (∀ (d : TickObj) (ps : String), pyOrStr d.p d.c = some ps → parseDecimal ps = none →
        extractTick (Msg.obj none d) = none) := by
  refine ⟨?_, rfl, ?_, ?_, ?_, ?_, ?_⟩
  · intro m now pm he
    simp [onMessage, he]
  · intro c ps hps
    simp [pyOrStr, hps]
  · intro c
    exact ⟨rfl, rfl⟩
  · intro d hd
    rcases hd with hd | hd <;> simp [extractTick, msgData, hd, pyUpper]
  · intro d hd
    simp [extractTick, msgData, hd]
  · intro d ps hd hp
    by_cases hps : ps = ""
    · simp [extractTick, msgData, hd, hps]
    · simp [extractTick, msgData, hd, hps, hp]

/-- C7 witness: concrete dropped messages (malformed JSON, missing symbol,
missing price, unparseable price) leave a concrete cache unchanged, and the
p-over-c preference on concrete field values. -/
theorem C7_onMessage_discard_witness :
    onMessage Msg.malformed 5 [("BTCUSDT", (1 : ℚ), 0)] = [("BTCUSDT", (1 : ℚ), 0)] ∧
    pyOrStr (some "2.5") (some "3.5") = some "2.5" ∧
    pyOrStr none (some "3.5") = some "3.5" ∧
    extractTick (Msg.obj none ⟨none, some "1", none⟩) = none ∧
    extractTick (Msg.obj none ⟨some "X", none, none⟩) = none ∧
    extractTick (Msg.obj none ⟨some "X", some "abc", none⟩) = none :=
  ⟨C7_onMessage_discard.1 Msg.malformed 5 _ rfl,
   C7_onMessage_discard.2.2.1 (some "3.5") "2.5" (by decide),
   (C7_onMessage_discard.2.2.2.1 (some "3.5")).1,
   C7_onMessage_discard.2.2.2.2.1 ⟨none, some "1", none⟩ (Or.inl rfl),
   C7_onMessage_discard.2.2.2.2.2.1 ⟨some "X", none, none⟩ rfl,
   C7_onMessage_discard.2.2.2.2.2.2 ⟨some "X", some "abc", none⟩ "abc" rfl rfl⟩

/-- C9: the API is case-insensitive by uppercase normalization: any two
spellings with the same uppercase form are interchangeable for subscribe,
unsubscribe and get_price, and every stored tick symbol is an uppercase
form. -/
theorem C9_case_normalization :
    (∀ (h jk : Bool) (s1 s2 : String) (σ : SysState), pyUpper s1 = pyUpper s2 →
        subscribe h jk s1 σ = subscribe h jk s2 σ ∧
        unsubscribe h jk s1 σ = unsubscribe h jk s2 σ ∧
        getPrice σ s1 = getPrice σ s2) ∧
    (∀ (m : Msg) (sq : String × ℚ), extractTick m = some sq →
        ∃ raw, sq.1 = pyUpper raw) := by
  constructor
  · intro h jk s1 s2 σ he
    refine ⟨?_, ?_, ?_⟩ <;> simp only [subscribe, unsubscribe, getPrice, he]
  · intro m sq hext
    rcases m with _ | ⟨d, t⟩
    · simp [extractTick, msgData] at hext
    · simp only [extractTick, msgData] at hext
      by_cases hg : pyUpper ((d.getD t).s.getD "") = ""
          ∨ ((pyOrStr (d.getD t).p (d.getD t).c).getD "") = ""
      · rw [if_pos hg] at hext
        simp at hext
      · rw [if_neg hg] at hext
        rcases hq : parseDecimal ((pyOrStr (d.getD t).p (d.getD t).c).getD "") with _ | q <;>
          rw [hq] at hext
        · simp at hext
        · simp only [Option.map_some'] at hext
          have hsq := Option.some.inj hext
          exact ⟨(d.getD t).s.getD "", by rw [← hsq]⟩

/-- C9 witness: "btcusdt" and "BTCUSDT" are interchangeable on a concrete
state, and a concrete tick stores an uppercase symbol. -/
theorem C9_case_normalization_witness :
    subscribe true true "btcusdt" initState = subscribe true true "BTCUSDT" initState ∧
    getPrice initState "btcusdt" = getPrice initState "BTCUSDT" ∧
    ∃ raw, ("BTCUSDT", ((1 * ((1 : ℕ) : ℤ) : ℤ) : ℚ)).1 = pyUpper raw :=
  ⟨(C9_case_normalization.1 true true "btcusdt" "BTCUSDT" initState (by decide)).1,
   (C9_case_normalization.1 true true "btcusdt" "BTCUSDT" initState (by decide)).2.2,
   C9_case_normalization.2 (Msg.obj none ⟨some "BTCUSDT", some "1", none⟩)
     ("BTCUSDT", ((1 * ((1 : ℕ) : ℤ) : ℤ) : ℚ)) rfl⟩

/-- C2: in every reachable state every price-cache entry is for a symbol
that was at some point subscribed and at some point delivered by a tick
(under the feed contract that a connection only carries ticks for the
symbols it subscribed); and unsubscribing a currently subscribed symbol
removes its cache entry, so get_price then returns none. -/
theorem C2_cache_only_subscribed :
    (∀ (strict : Bool) (σ : SysState), Reachable true strict σ →
        ∀ e ∈ σ.prices, e.1 ∈ σ.everSubscribed ∧ e.1 ∈ σ.everTicked) ∧
    (∀ (jk : Bool) (s : String) (σ : SysState), pyUpper s ∈ σ.symbols →
        getPrice ((unsubscribe true jk s σ).1) s = none) := by
  constructor
  · intro strict σ h
    exact (cacheInv_reachable h).1
  · intro jk s σ hm
    rw [unsubscribe]
    simp only [if_true, hm]
    show getPrice (restartConnection true jk _) s = none
    rw [getPrice, restart_prices]
    exact lookupPrice_removePrice_self _ _

/-- C2 witness: after subscribing BTCUSDT and receiving one tick for it, the
cached symbol is recorded as subscribed-and-ticked; and unsubscribing it
makes get_price return none. -/
theorem C2_cache_only_subscribed_witness :
    (("BTCUSDT" : String) ∈
        (applyTick (Msg.obj none ⟨some "BTCUSDT", some "1", none⟩) 0
          (subscribe true true "BTCUSDT" initState).1).everSubscribed ∧
      ("BTCUSDT" : String) ∈
        (applyTick (Msg.obj none ⟨some "BTCUSDT", some "1", none⟩) 0
          (subscribe true true "BTCUSDT" initState).1).everTicked) ∧
    getPrice ((unsubscribe true true "BTCUSDT" (subscribe true true "BTCUSDT" initState).1).1)
        "BTCUSDT" = none := by
  constructor
  · have step1 : Step true false initState (subscribe true true "BTCUSDT" initState).1 :=
      Step.subscribeStep "BTCUSDT" true initState (fun _ => rfl)
    have step2 : Step true false (subscribe true true "BTCUSDT" initState).1
        (applyTick (Msg.obj none ⟨some "BTCUSDT", some "1", none⟩) 0
          (subscribe true true "BTCUSDT" initState).1) := by
      refine Step.tickStep ⟨0, BINANCE_WS_BASE ++ String.intercalate "/"
            (((insert (pyUpper "BTCUSDT") (∅ : Finset String)).sort (· ≤ ·)).map
              (fun s => pyLower s ++ "@trade")), insert (pyUpper "BTCUSDT") ∅⟩
          (Msg.obj none ⟨some "BTCUSDT", some "1", none⟩) 0 _ ?_ ?_
      · exact List.Mem.head _
      · intro sq hsq
        have hX : extractTick (Msg.obj none ⟨some "BTCUSDT", some "1", none⟩)
            = some ("BTCUSDT", ((1 * ((1 : ℕ) : ℤ) : ℤ) : ℚ)) := rfl
        have hsq2 : sq = ("BTCUSDT", ((1 * ((1 : ℕ) : ℤ) : ℤ) : ℚ)) :=
          (Option.some.inj (hX.symm.trans hsq)).symm
        rw [hsq2]
        decide
    have hreach : Reachable true false
        (applyTick (Msg.obj none ⟨some "BTCUSDT", some "1", none⟩) 0
          (subscribe true true "BTCUSDT" initState).1) :=
      Relation.ReflTransGen.tail (Relation.ReflTransGen.single step1) step2
    exact C2_cache_only_subscribed.1 false _ hreach
      ("BTCUSDT", ((1 * ((1 : ℕ) : ℤ) : ℤ) : ℚ), 0) (List.Mem.head _)
  · exact C2_cache_only_subscribed.2 true "BTCUSDT" _ (by decide)

/-- C8: a delivered tick stores the exact decimal value of its price string
and get_price returns exactly that value; the price string
"65000.12345678" parses to exactly 6500012345678 / 100000000, with no
binary-float rounding. -/
theorem C8_exact_decimal :
    (∀ (σ : SysState) (m : Msg) (now : Nat) (s : String) (q : ℚ),
        extractTick m = some (pyUpper s, q) →
        getPrice (applyTick m now σ) s = some (q, now)) ∧
    (parseDecimal "65000.12345678" = some ((6500012345678 : ℚ) / 100000000)) := by
  constructor
  · intro σ m now s q hext
    show lookupPrice (pyUpper s) (onMessage m now σ.prices) = some (q, now)
    simp only [onMessage, hext]
    exact lookupPrice_putPrice_self _ _ _
  · have h : parseDecimal "65000.12345678"
        = some (((1 * ((65000 * 10 ^ 8 + 12345678 : ℕ) : ℤ) : ℤ) : ℚ) / ((10 ^ 8 : ℕ) : ℚ)) := rfl
    rw [h]
    norm_num

/-- C8 witness: a concrete tick with price string "65000.12345678" is
returned by get_price as exactly that decimal value. -/
theorem C8_exact_decimal_witness :
    getPrice (applyTick (Msg.obj none ⟨some "BTCUSDT", some "65000.12345678", none⟩) 7 initState)
        "btcusdt"
      = some ((((1 * ((65000 * 10 ^ 8 + 12345678 : ℕ) : ℤ) : ℤ) : ℚ) / ((10 ^ 8 : ℕ) : ℚ)), 7) ∧
    parseDecimal "65000.12345678" = some ((6500012345678 : ℚ) / 100000000) :=
  ⟨C8_exact_decimal.1 initState (Msg.obj none ⟨some "BTCUSDT", some "65000.12345678", none⟩) 7
      "btcusdt" (((1 * ((65000 * 10 ^ 8 + 12345678 : ℕ) : ℤ) : ℤ) : ℚ) / ((10 ^ 8 : ℕ) : ℚ)) rfl,
   C8_exact_decimal.2⟩

/-- C1 counterexample: the claim that every execution keeps at most one
background thread (ConnectionHandle) alive is false. When _stop_ws joins the
previous thread with its one second timeout and the join times out, the
source proceeds regardless, and _run_ws then clears the shared stop event
before spawning the new thread, so the superseded thread is re-armed and
stays alive next to the new one: after subscribe("A") followed by
subscribe("B") whose join times out, two threads are live. -/
theorem C1_two_live_handles_counterexample :
    ¬ (∀ σ : SysState, Reachable true false σ → σ.live.length ≤ 1) := by
  intro hall
  have step1 : Step true false initState (subscribe true true "A" initState).1 :=
    Step.subscribeStep "A" true initState (fun _ => rfl)
  have step2 : Step true false (subscribe true true "A" initState).1
      (subscribe true false "B" (subscribe true true "A" initState).1).1 :=
    Step.subscribeStep "B" false _ (fun h => h)
  have hr : Reachable true false
      (subscribe true false "B" (subscribe true true "A" initState).1).1 :=
    Relation.ReflTransGen.tail (Relation.ReflTransGen.single step1) step2
  have hlen : (subscribe true false "B" (subscribe true true "A" initState).1).1.live.length = 2 :=
    by decide
  have := hall _ hr
  omega

/-- C1 amended: in every execution in which each _stop_ws join completes
inside its timeout (the thread exits before the one second join expires),
at most one background thread is alive at any instant, so every handle
replacement passes through a fully-stopped intermediate state. -/
theorem C1_at_most_one_handle :
    ∀ σ : SysState, Reachable true true σ → σ.live.length ≤ 1 :=
  fun _ h => (handleInv_reachable h).1

/-- C1 witness: the state after one subscribe, reached by a join-respecting
execution, has at most one live thread. -/
theorem C1_at_most_one_handle_witness :
    (subscribe true true "A" initState).1.live.length ≤ 1 :=
  C1_at_most_one_handle _
    (Relation.ReflTransGen.single (Step.subscribeStep "A" true initState (fun _ => rfl)))

/-- C3 counterexample: the claim that after stop() no subsequent operation
on the same instance ever opens a new connection is false. stop() is just
_stop_ws and records no terminal flag, so a later subscribe of a new symbol
runs _restart_connection and spawns a fresh thread: after subscribe("A"),
stop(), subscribe("B"), a new connection thread exists (the spawn counter
has advanced). -/
theorem C3_not_terminal_counterexample :
    ¬ (∀ σ : SysState, Reachable true false σ → ∀ (jk : Bool) (σ2 : SysState),
        Relation.ReflTransGen (Step true false) (stop jk σ) σ2 →
        σ2.nextId = (stop jk σ).nextId ∧ σ2.live = []) := by
  intro hall
  have h1 : Reachable true false (subscribe true true "A" initState).1 :=
    Relation.ReflTransGen.single (Step.subscribeStep "A" true initState (fun _ => rfl))
  have h2 : Relation.ReflTransGen (Step true false)
      (stop true (subscribe true true "A" initState).1)
      (subscribe true true "B" (stop true (subscribe true true "A" initState).1)).1 :=
    Relation.ReflTransGen.single
      (Step.subscribeStep "B" true (stop true (subscribe true true "A" initState).1)
        (fun _ => rfl))
  have hres := hall _ h1 true _ h2
  have hne : (subscribe true true "B" (stop true (subscribe true true "A" initState).1)).1.nextId
      = 2 := by decide
  have h0 : (stop true (subscribe true true "A" initState).1).nextId = 1 := by decide
  omega

/-- C3 amended: stop() closes the live connection (in a join-respecting
execution no background thread survives it) and raises the stop event; it
is safe to call multiple times, a second stop() leaving the state exactly
unchanged; but the state is not terminal: a subsequent subscribe of a
not-yet-subscribed symbol opens a new connection on the same instance. -/
theorem C3_stop_closes_and_is_idempotent :
    (∀ (jk1 jk2 : Bool) (σ : SysState), stop jk2 (stop jk1 σ) = stop jk1 σ) ∧
    (∀ (jk : Bool) (σ : SysState),
        (stop jk σ).stopEvent = true ∧ (stop jk σ).curThread = none) ∧
    (∀ σ : SysState, Reachable true true σ → (stop true σ).live = []) ∧
    (∀ (jk : Bool) (s : String) (σ : SysState), pyUpper s ∉ σ.symbols →
        (subscribe true jk s (stop true σ)).1.nextId = σ.nextId + 1) := by
  refine ⟨?_, ?_, ?_, ?_⟩
  · intro jk1 jk2 σ
    rcases jk2 <;> rfl
  · intro jk σ
    exact ⟨rfl, rfl⟩
  · intro σ h
    exact stopWs_live_nil σ (handleInv_reachable h).2
  · intro jk s σ hnm
    rw [subscribe]
    have hnm2 : pyUpper s ∉ (stop true σ).symbols := hnm
    simp only [if_true, hnm2, if_false]
    rcases hbu : buildUrl (insert (pyUpper s) (stop true σ).symbols) with _ | url
    · exact absurd ((buildUrl_eq_none_iff _).mp hbu) (Finset.insert_ne_empty _ _)
    · rw [restart_someT_nextId jk _ url hbu]
      rfl

/-- C3 witness: concrete double stop, stop-state fields, empty live set
after stop from a join-respecting run, and a re-opened connection after
stop. -/
theorem C3_stop_closes_and_is_idempotent_witness :
    stop true (stop true initState) = stop true initState ∧
    (stop true initState).stopEvent = true ∧
    (stop true initState).live = [] ∧
    (subscribe true true "A" (stop true initState)).1.nextId = initState.nextId + 1 :=
  ⟨C3_stop_closes_and_is_idempotent.1 true true initState,
   (C3_stop_closes_and_is_idempotent.2.1 true initState).1,
   C3_stop_closes_and_is_idempotent.2.2.1 initState Relation.ReflTransGen.refl,
   C3_stop_closes_and_is_idempotent.2.2.2 true "A" initState (by decide)⟩

end PS
